import Mathlib

/-!
Shallow embedding of the credential & session security subsystem of the
CalTrack application (src/src/utils/crypto.js and the AuthContext provider),
together with proofs of the specification claims about it.

Platform primitives (WebCrypto PBKDF2/AES-GCM, TextEncoder/TextDecoder,
the AES block keystream and GHASH tag inside AES-GCM) are not repository
code; they are carried as parameters in a `CryptoPrims` bundle.  Everything
the repository itself does — base64 conversion, the wrapping of the cipher,
the lockout policy, attempt counting, session state transitions — is
translated directly from the source.
-/

namespace CalTrack

/-! ### Bytes and base64 (bufferToBase64 / base64ToBuffer in crypto.js)

JS `Uint8Array` stores values mod 256; `bytes` models that coercion.
`btoa`/`atob` are the standard base64 codec over binary strings; composed
with the char-code loops of `bufferToBase64`/`base64ToBuffer` they form a
base64 codec over byte lists, implemented here concretely. -/

def bytes (l : List Nat) : List Nat := l.map (fun b => b % 256)

def b64chars : List Char :=
  "ABCDEFGHIJKLMNOPQRSTUVWXYZabcdefghijklmnopqrstuvwxyz0123456789+/".data

def tbl (n : Nat) : Char := b64chars.getD n 'A'

def b64val (c : Char) : Nat := b64chars.findIdx (fun d => d == c)

def b64encodeChars : List Nat → List Char
  | [] => []
  | [b1] => [tbl (b1 / 4), tbl (b1 % 4 * 16), '=', '=']
  | [b1, b2] => [tbl (b1 / 4), tbl (b1 % 4 * 16 + b2 / 16), tbl (b2 % 16 * 4), '=']
  | b1 :: b2 :: b3 :: rest =>
      tbl (b1 / 4) :: tbl (b1 % 4 * 16 + b2 / 16) :: tbl (b2 % 16 * 4 + b3 / 64) ::
        tbl (b3 % 64) :: b64encodeChars rest

def b64decodeChars : List Char → List Nat
  | c1 :: c2 :: c3 :: c4 :: rest =>
      if c3 = '=' then
        [b64val c1 * 4 + b64val c2 / 16]
      else if c4 = '=' then
        [b64val c1 * 4 + b64val c2 / 16, b64val c2 % 16 * 16 + b64val c3 / 4]
      else
        [b64val c1 * 4 + b64val c2 / 16, b64val c2 % 16 * 16 + b64val c3 / 4,
          b64val c3 % 4 * 64 + b64val c4] ++ b64decodeChars rest
  | _ => []

def bufferToBase64 (bs : List Nat) : String := String.mk (b64encodeChars bs)

def base64ToBuffer (s : String) : List Nat := bytes (b64decodeChars s.data)

/-! ### Crypto primitives bundle

`kdf` models `crypto.subtle.importKey` + `deriveKey` (PBKDF2-SHA-256,
100000 iterations) applied to the UTF-8 password bytes, salt and usage
string; `blk` models the AES-256 counter-mode keystream block of AES-GCM;
`tagF` models the GHASH authentication tag over (key, iv, ciphertext);
`encodeText`/`decodeText` model TextEncoder/TextDecoder. -/

structure CryptoPrims where
  kdf : List Nat → List Nat → String → List Nat
  blk : List Nat → List Nat → Nat → List Nat
  tagF : List Nat → List Nat → List Nat → List Nat
  encodeText : String → List Nat
  decodeText : List Nat → String

/-- Model of `deriveKey(password, salt, usage)` of crypto.js: encodes the password,
imports it as PBKDF2 key material and derives key bytes.  The source
performs no input validation (no check for an empty password or for the
salt length). -/
def deriveKey (P : CryptoPrims) (password : String) (salt : List Nat)
    (usage : String) : List Nat :=
  bytes (P.kdf (bytes (P.encodeText password)) salt usage)

/-- Model of `hashPassword(password, existingSalt)`: the caller either supplies the
stored salt or a fresh random salt from `generateSalt()`; the resolved salt
bytes are the `saltBytes` argument here.  Returns (hash, salt), both
base64. -/
def hashPassword (P : CryptoPrims) (password : String) (saltBytes : List Nat) :
    String × String :=
  let salt := bytes saltBytes
  let key := deriveKey P password salt "hash"
  (bufferToBase64 key, bufferToBase64 salt)

/-- Model of `verifyPassword(password, storedHash, storedSalt)` of crypto.js. -/
def verifyPassword (P : CryptoPrims) (password storedHash storedSalt : String) :
    Bool :=
  let salt := base64ToBuffer storedSalt
  ((hashPassword P password salt).1 == storedHash)

/-! ### AES-GCM (the `crypto.subtle.encrypt`/`decrypt` calls)

AES-GCM is counter mode: the ciphertext is the plaintext XORed with the
AES-generated keystream, followed by a 16-byte authentication tag; decrypt
recomputes the tag, rejects on mismatch, and XORs with the same keystream. -/

def zipXor : List Nat → List Nat → List Nat
  | a :: as, b :: bs => (a ^^^ b) :: zipXor as bs
  | _, _ => []

def padTo16 (l : List Nat) : List Nat := (l ++ List.replicate 16 0).take 16

def keyStream (P : CryptoPrims) (key iv : List Nat) (n : Nat) : List Nat :=
  (((List.range (n / 16 + 1)).map (fun i => padTo16 (bytes (P.blk key iv i)))).flatten).take n

def gcmTag (P : CryptoPrims) (key iv ct : List Nat) : List Nat :=
  padTo16 (bytes (P.tagF key iv ct))

def aesGcmEncrypt (P : CryptoPrims) (key iv pt : List Nat) : List Nat :=
  let ct := zipXor pt (keyStream P key iv pt.length)
  ct ++ gcmTag P key iv ct

def aesGcmDecrypt (P : CryptoPrims) (key iv data : List Nat) : Option (List Nat) :=
  if data.length < 16 then none
  else
    let ct := data.take (data.length - 16)
    let tg := data.drop (data.length - 16)
    if tg = gcmTag P key iv ct then some (zipXor ct (keyStream P key iv ct.length))
    else none

/-- Model of `encryptData(plaintext, password, salt)` of crypto.js; `ivRand` is the
random draw of `generateIV()` (a 12-byte `Uint8Array`), injected by the
caller.  Returns (encrypted, iv), both base64. -/
def encryptData (P : CryptoPrims) (plaintext password salt : String)
    (ivRand : List Nat) : String × String :=
  let saltBuffer := base64ToBuffer salt
  let key := deriveKey P password saltBuffer "encrypt"
  let iv := bytes ivRand
  let ptBytes := bytes (P.encodeText plaintext)
  let encBuf := aesGcmEncrypt P key iv ptBytes
  (bufferToBase64 encBuf, bufferToBase64 iv)

/-- Model of `decryptData(encrypted, iv, password, salt)` of crypto.js; `none`
models the AES-GCM authentication failure (rejected promise). -/
def decryptData (P : CryptoPrims) (encrypted iv password salt : String) :
    Option String :=
  let saltBuffer := base64ToBuffer salt
  let key := deriveKey P password saltBuffer "encrypt"
  let ivBuffer := base64ToBuffer iv
  let encryptedBuffer := base64ToBuffer encrypted
  (aesGcmDecrypt P key ivBuffer encryptedBuffer).map P.decodeText

/-! ### The persisted AuthRecord and ambient application state

`AuthRecord` is the single record of the `auth` table (schema documented in
src/utils/db.js).  `AppState` bundles the persisted record (`db`, written
through `setAuthData`/read through `getAuthData`), the sessionStorage
session (`session` = its `expiresAt`), the in-memory decrypted API key and
current password, and the React auth state.  Each operation of the
AuthContext provider becomes a function from inputs and `AppState` to a
result and a new `AppState`; the several `Date.now()` reads inside one
operation are modelled as a single instant `now`. -/

structure AuthRecord where
  passwordHash : String
  salt : String
  encryptedApiKey : Option String
  apiKeyIV : Option String
  biometricEnabled : Bool
  biometricCredentialId : Option String
  failedAttempts : Nat
  lockoutUntil : Option Nat
  createdAt : Nat
  targetCalories : Nat
deriving DecidableEq, Repr

structure AuthFlags where
  isLoading : Bool
  needsSetup : Bool
  isAuthenticated : Bool
  authData : Option AuthRecord
deriving DecidableEq, Repr

structure AppState where
  db : Option AuthRecord
  session : Option Nat
  decryptedApiKey : Option String
  currentPassword : Option String
  authState : AuthFlags
deriving DecidableEq, Repr

def SESSION_TIMEOUT : Nat := 30 * 60 * 1000
def LOCKOUT_DURATION : Nat := 30 * 1000
def MAX_FAILED_ATTEMPTS : Nat := 5

/-- JS truthiness of an optional string (`null`, `undefined` and `""` are
falsy). -/
def isTruthy : Option String → Bool
  | none => false
  | some s => !s.isEmpty

inductive SetupResult
  | ok
deriving DecidableEq, Repr

inductive LoginResult
  | noAccount
  | lockedRemaining (remainingSeconds : Nat)
  | lockedAfterFailures
  | invalidPassword (attemptsRemaining : Nat)
  | loggedIn
deriving DecidableEq, Repr

inductive BioLoginResult
  | notEnabled
  | authFailed
  | loggedIn (needsPasswordForApiKey : Bool)
deriving DecidableEq, Repr

inductive UnlockResult
  | noApiKey
  | invalidPassword
  | decryptFailed
  | unlocked
deriving DecidableEq, Repr

inductive WipeResult
  | storeError
  | invalidPassword
  | wiped
deriving DecidableEq, Repr

/-- Model of `setupAccount(password, targetCalories = 2000)`: hashes the password
with a fresh random salt (`saltRand` is the injected draw of
`generateSalt()`), writes a brand-new AuthRecord, creates a session and
authenticates.  The source never checks whether a record already exists. -/
def setupAccount (P : CryptoPrims) (now : Nat) (password : String)
    (targetCalories : Nat) (saltRand : List Nat) (s : AppState) :
    SetupResult × AppState :=
  let hs := hashPassword P password saltRand
  let authData : AuthRecord :=
    { passwordHash := hs.1
      salt := hs.2
      encryptedApiKey := none
      apiKeyIV := none
      biometricEnabled := false
      biometricCredentialId := none
      failedAttempts := 0
      lockoutUntil := none
      createdAt := now
      targetCalories := targetCalories }
  (.ok,
    { s with
      db := some authData
      session := some (now + SESSION_TIMEOUT)
      currentPassword := some password
      authState :=
        { isLoading := false, needsSetup := false, isAuthenticated := true
          authData := some authData } })

/-- The body of `loginWithPassword` after the lockout check (lines
220-273): verify, record failure / lockout, or on success reset attempts,
try to decrypt the stored API key (a decryption failure is caught and
leaves the key empty), create a session and authenticate.  Note the source
stores the *pre-reset* record into React state (line 270). -/
def loginEvaluate (P : CryptoPrims) (now : Nat) (password : String)
    (s : AppState) (ad : AuthRecord) : LoginResult × AppState :=
  let isValid := verifyPassword P password ad.passwordHash ad.salt
  if !isValid then
    let newFailedAttempts := ad.failedAttempts + 1
    if MAX_FAILED_ATTEMPTS ≤ newFailedAttempts then
      (.lockedAfterFailures,
        { s with db := some { ad with failedAttempts := 0
                                      lockoutUntil := some (now + LOCKOUT_DURATION) } })
    else
      (.invalidPassword (MAX_FAILED_ATTEMPTS - newFailedAttempts),
        { s with db := some { ad with failedAttempts := newFailedAttempts } })
  else
    let apiKey : Option String :=
      match ad.encryptedApiKey, ad.apiKeyIV with
      | some e, some iv =>
          if !e.isEmpty && !iv.isEmpty then decryptData P e iv password ad.salt
          else none
      | _, _ => none
    (.loggedIn,
      { s with
        db := some { ad with failedAttempts := 0, lockoutUntil := none }
        session := some (now + SESSION_TIMEOUT)
        currentPassword := some password
        decryptedApiKey := apiKey
        authState :=
          { isLoading := false, needsSetup := false, isAuthenticated := true
            authData := some ad } })

/-- Model of `loginWithPassword(password)` (lines 206-278): no record → error;
active lockout → Locked with the remaining seconds (`Math.ceil` of the
remaining milliseconds over 1000) and *no* verification; otherwise the
attempt is evaluated. -/
def loginWithPassword (P : CryptoPrims) (now : Nat) (password : String)
    (s : AppState) : LoginResult × AppState :=
  match s.db with
  | none => (.noAccount, s)
  | some ad =>
    match ad.lockoutUntil with
    | some t =>
        if now < t then (.lockedRemaining ((t - now + 999) / 1000), s)
        else loginEvaluate P now password s ad
    | none => loginEvaluate P now password s ad

/-- Model of `loginWithBiometric()` (lines 280-313); `outcome` is the yes/no answer
of `authenticateBiometric`.  On success it creates a session and
authenticates but touches neither `decryptedApiKey` nor
`currentPassword`. -/
def loginWithBiometric (outcome : Bool) (now : Nat) (s : AppState) :
    BioLoginResult × AppState :=
  match s.db with
  | none => (.notEnabled, s)
  | some ad =>
    if !(ad.biometricEnabled && isTruthy ad.biometricCredentialId) then
      (.notEnabled, s)
    else if !outcome then (.authFailed, s)
    else
      (.loggedIn (isTruthy ad.encryptedApiKey),
        { s with
          session := some (now + SESSION_TIMEOUT)
          authState :=
            { isLoading := false, needsSetup := false, isAuthenticated := true
              authData := some ad } })

/-- Model of `unlockApiKey(password)` (lines 397-427): requires a stored key pair,
verifies the password (no lockout check, no attempt bookkeeping), decrypts
and places the key and password in memory.  A missing record or a failed
decryption lands in the catch-all (`'Failed to decrypt API key'`). -/
def unlockApiKey (P : CryptoPrims) (password : String) (s : AppState) :
    UnlockResult × AppState :=
  match s.db with
  | none => (.decryptFailed, s)
  | some ad =>
    match ad.encryptedApiKey, ad.apiKeyIV with
    | some e, some iv =>
        if e.isEmpty || iv.isEmpty then (.noApiKey, s)
        else if !(verifyPassword P password ad.passwordHash ad.salt) then
          (.invalidPassword, s)
        else
          match decryptData P e iv password ad.salt with
          | none => (.decryptFailed, s)
          | some k =>
              (.unlocked,
                { s with currentPassword := some password
                         decryptedApiKey := some k })
    | _, _ => (.noApiKey, s)

/-- Model of `deleteAll(password)` (lines 446-475): verifies the password (with no
lockout check), then clears the database, the session and all in-memory
secret material and returns to the needs-setup state. -/
def deleteAll (P : CryptoPrims) (password : String) (s : AppState) :
    WipeResult × AppState :=
  match s.db with
  | none => (.storeError, s)
  | some ad =>
    if !(verifyPassword P password ad.passwordHash ad.salt) then
      (.invalidPassword, s)
    else
      (.wiped,
        { db := none, session := none, decryptedApiKey := none
          currentPassword := none
          authState :=
            { isLoading := false, needsSetup := true, isAuthenticated := false
              authData := none } })

/-- Model of `lock()` (lines 430-444). -/
def lock (s : AppState) : AppState :=
  { s with decryptedApiKey := none, currentPassword := none, session := none
           authState := { s.authState with isAuthenticated := false } }

/-- Model of `enableBiometric()` (lines 316-343); `available` and `credentialId`
are the injected answers of `isBiometricAvailable` and
`registerBiometric`.  A missing record throws before any write and the
catch leaves the state unchanged. -/
def enableBiometric (available : Bool) (credentialId : String) (s : AppState) :
    AppState :=
  if !available then s
  else
    match s.db with
    | none => s
    | some ad =>
      { s with
        db := some { ad with biometricEnabled := true
                             biometricCredentialId := some credentialId }
        authState :=
          { s.authState with
            authData := s.authState.authData.map fun a =>
              { a with biometricEnabled := true
                       biometricCredentialId := some credentialId } } }

/-- Model of `disableBiometric()` (lines 346-366). -/
def disableBiometric (s : AppState) : AppState :=
  match s.db with
  | none => s
  | some ad =>
    { s with
      db := some { ad with biometricEnabled := false
                           biometricCredentialId := none }
      authState :=
        { s.authState with
          authData := s.authState.authData.map fun a =>
            { a with biometricEnabled := false
                     biometricCredentialId := none } } }

/-- Model of `saveApiKey(apiKey, password = currentPassword)` (lines 369-395);
`ivRand` is the injected random IV of the inner `encryptData` call. -/
def saveApiKey (P : CryptoPrims) (apiKey : String) (passwordArg : Option String)
    (ivRand : List Nat) (s : AppState) : Bool × AppState :=
  let password := match passwordArg with
    | some p => p
    | none => s.currentPassword.getD ""
  if password.isEmpty then (false, s)
  else
    match s.db with
    | none => (false, s)
    | some ad =>
      let enc := encryptData P apiKey password ad.salt ivRand
      (true,
        { s with
          db := some { ad with encryptedApiKey := some enc.1
                               apiKeyIV := some enc.2 }
          decryptedApiKey := some apiKey
          authState :=
            { s.authState with
              authData := s.authState.authData.map fun a =>
                { a with encryptedApiKey := some enc.1
                         apiKeyIV := some enc.2 } } })

/-! ### Operation traces (for the temporal biometric-session property) -/

inductive SessOp
  | opPwLogin (password : String) (now : Nat)
  | opBioLogin (outcome : Bool) (now : Nat)
  | opUnlock (password : String)
  | opWipe (password : String)
  | opLock
  | opEnableBio (available : Bool) (credentialId : String)
  | opDisableBio
deriving DecidableEq, Repr

def applyOp (P : CryptoPrims) (s : AppState) : SessOp → AppState
  | .opPwLogin pw now => (loginWithPassword P now pw s).2
  | .opBioLogin b now => (loginWithBiometric b now s).2
  | .opUnlock pw => (unlockApiKey P pw s).2
  | .opWipe pw => (deleteAll P pw s).2
  | .opLock => lock s
  | .opEnableBio a c => enableBiometric a c s
  | .opDisableBio => disableBiometric s

def runOps (P : CryptoPrims) (s : AppState) : List SessOp → AppState
  | [] => s
  | op :: ops => runOps P (applyOp P s op) ops

/-- Whether an operation supplies the account's correct password (relative
to the stored hash and salt). -/
def opUsesCorrectPassword (P : CryptoPrims) (hash salt : String) : SessOp → Bool
  | .opPwLogin pw _ => verifyPassword P pw hash salt
  | .opUnlock pw => verifyPassword P pw hash salt
  | .opWipe pw => verifyPassword P pw hash salt
  | _ => false

/-! ### Concrete instances used by witnesses and counterexamples -/

/-- A concrete instantiation of the platform primitives, used to evaluate
the model at concrete inputs. -/
def demoPrims : CryptoPrims :=
  { kdf := fun pwBytes saltBytes _usage => pwBytes ++ saltBytes
    blk := fun _ _ _ => []
    tagF := fun _ _ _ => []
    encodeText := fun s => s.data.map Char.toNat
    decodeText := fun bs => String.mk (bs.map Char.ofNat) }

def demoEnc : String × String := encryptData demoPrims "sk-abc123" "pw" "" [1, 2, 3]

def demoRecord : AuthRecord :=
  { passwordHash := (hashPassword demoPrims "pw" []).1
    salt := (hashPassword demoPrims "pw" []).2
    encryptedApiKey := some demoEnc.1
    apiKeyIV := some demoEnc.2
    biometricEnabled := true
    biometricCredentialId := some "cred"
    failedAttempts := 0
    lockoutUntil := none
    createdAt := 1000
    targetCalories := 2000 }

def demoState : AppState :=
  { db := some demoRecord, session := none, decryptedApiKey := none
    currentPassword := none
    authState :=
      { isLoading := false, needsSetup := false, isAuthenticated := false
        authData := some demoRecord } }

def demoLockedRecord : AuthRecord := { demoRecord with lockoutUntil := some 100000 }

def demoLockedState : AppState := { demoState with db := some demoLockedRecord }

/-- A record whose stored ciphertext is corrupt: `"AAAA"` decodes to 3
bytes, shorter than the 16-byte GCM tag, so decryption fails. -/
def demoCorruptRecord : AuthRecord := { demoRecord with encryptedApiKey := some "AAAA" }

def demoCorruptState : AppState := { demoState with db := some demoCorruptRecord }

/-- Invariant carried along operation traces: the in-memory decrypted
secret is absent and the persisted record still holds the original
credential and secret fields. -/
def SecretInv (ad0 : AuthRecord) (s : AppState) : Prop :=
  s.decryptedApiKey = none ∧
  ∃ r, s.db = some r ∧ r.passwordHash = ad0.passwordHash ∧ r.salt = ad0.salt ∧
    r.encryptedApiKey = ad0.encryptedApiKey ∧ r.apiKeyIV = ad0.apiKeyIV

/-! ## Helper lemmas -/

theorem b64val_tbl_fin : ∀ n : Fin 64, b64val (tbl n.1) = n.1 := by decide

theorem tbl_ne_pad_fin : ∀ n : Fin 64, tbl n.1 ≠ '=' := by decide

theorem b64val_tbl {n : Nat} (h : n < 64) : b64val (tbl n) = n :=
  b64val_tbl_fin ⟨n, h⟩

theorem tbl_ne_pad {n : Nat} (h : n < 64) : tbl n ≠ '=' :=
  tbl_ne_pad_fin ⟨n, h⟩

theorem div_mul_add {x r c : Nat} (hc : 0 < c) (hr : r < c) :
    (x * c + r) / c = x := by
  rw [Nat.mul_comm x c, Nat.mul_add_div hc, Nat.div_eq_of_lt hr, Nat.add_zero]

theorem mod_mul_add {x r c : Nat} (hr : r < c) : (x * c + r) % c = r := by
  rw [Nat.mul_comm x c, Nat.mul_add_mod, Nat.mod_eq_of_lt hr]

theorem b64_roundtrip : ∀ bs : List Nat, (∀ b ∈ bs, b < 256) →
    b64decodeChars (b64encodeChars bs) = bs := by
  intro bs
  induction bs using b64encodeChars.induct with
  | case1 =>
    intro _
    rfl
  | case2 b1 =>
    intro h
    have hb1 : b1 < 256 := h b1 (by simp)
    have h1 : b1 / 4 < 64 := by omega
    have h2 : b1 % 4 * 16 < 64 := by omega
    simp only [b64encodeChars, b64decodeChars]
    rw [if_pos trivial]
    rw [b64val_tbl h1, b64val_tbl h2,
      Nat.mul_div_cancel _ (show 0 < 16 by norm_num)]
    congr 1
    omega
  | case3 b1 b2 =>
    intro h
    have hb1 : b1 < 256 := h b1 (by simp)
    have hb2 : b2 < 256 := h b2 (by simp)
    have h1 : b1 / 4 < 64 := by omega
    have h2 : b1 % 4 * 16 + b2 / 16 < 64 := by omega
    have h3 : b2 % 16 * 4 < 64 := by omega
    simp only [b64encodeChars, b64decodeChars]
    rw [if_neg (tbl_ne_pad h3), if_pos trivial]
    rw [b64val_tbl h1, b64val_tbl h2, b64val_tbl h3]
    have e1 : (b1 % 4 * 16 + b2 / 16) / 16 = b1 % 4 :=
      div_mul_add (by norm_num) (by omega)
    have e2 : (b1 % 4 * 16 + b2 / 16) % 16 = b2 / 16 :=
      mod_mul_add (by omega)
    have e3 : b2 % 16 * 4 / 4 = b2 % 16 :=
      Nat.mul_div_cancel _ (by norm_num)
    rw [e1, e2, e3]
    simp only [List.cons.injEq, and_true]
    exact ⟨by omega, by omega⟩
  | case4 b1 b2 b3 rest ih =>
    intro h
    have hb1 : b1 < 256 := h b1 (by simp)
    have hb2 : b2 < 256 := h b2 (by simp)
    have hb3 : b3 < 256 := h b3 (by simp)
    have h1 : b1 / 4 < 64 := by omega
    have h2 : b1 % 4 * 16 + b2 / 16 < 64 := by omega
    have h3 : b2 % 16 * 4 + b3 / 64 < 64 := by omega
    have h4 : b3 % 64 < 64 := by omega
    have hrest : ∀ b ∈ rest, b < 256 := fun b hb => h b (by simp [hb])
    simp only [b64encodeChars, b64decodeChars]
    rw [if_neg (tbl_ne_pad h3), if_neg (tbl_ne_pad h4)]
    simp only [List.cons_append, List.nil_append]
    rw [b64val_tbl h1, b64val_tbl h2, b64val_tbl h3, b64val_tbl h4, ih hrest]
    have e1 : (b1 % 4 * 16 + b2 / 16) / 16 = b1 % 4 :=
      div_mul_add (by norm_num) (by omega)
    have e2 : (b1 % 4 * 16 + b2 / 16) % 16 = b2 / 16 :=
      mod_mul_add (by omega)
    have e3 : (b2 % 16 * 4 + b3 / 64) / 4 = b2 % 16 :=
      div_mul_add (by norm_num) (by omega)
    have e4 : (b2 % 16 * 4 + b3 / 64) % 4 = b3 / 64 :=
      mod_mul_add (by omega)
    rw [e1, e2, e3, e4]
    simp only [List.cons.injEq, and_true]
    exact ⟨by omega, by omega, by omega⟩

theorem mem_bytes_lt {l : List Nat} : ∀ b ∈ bytes l, b < 256 := by
  intro b hb
  simp only [bytes, List.mem_map] at hb
  obtain ⟨a, _, rfl⟩ := hb
  omega

theorem bytes_eq_self {l : List Nat} (h : ∀ b ∈ l, b < 256) : bytes l = l := by
  induction l with
  | nil => rfl
  | cons x xs ih =>
    have hx : x < 256 := h x (by simp)
    have hxs : ∀ b ∈ xs, b < 256 := fun b hb => h b (by simp [hb])
    simp only [bytes, List.map_cons, List.cons.injEq]
    exact ⟨by omega, ih hxs⟩

theorem bytes_bytes (l : List Nat) : bytes (bytes l) = bytes l :=
  bytes_eq_self mem_bytes_lt

theorem base64_buffer_roundtrip (bs : List Nat) (h : ∀ b ∈ bs, b < 256) :
    base64ToBuffer (bufferToBase64 bs) = bs := by
  unfold base64ToBuffer bufferToBase64
  rw [show (String.mk (b64encodeChars bs)).data = b64encodeChars bs from rfl,
    b64_roundtrip bs h, bytes_eq_self h]

theorem length_padTo16 (l : List Nat) : (padTo16 l).length = 16 := by
  simp [padTo16]

theorem mem_padTo16_lt {l : List Nat} (h : ∀ b ∈ l, b < 256) :
    ∀ b ∈ padTo16 l, b < 256 := by
  intro b hb
  unfold padTo16 at hb
  have hb' := List.take_subset _ _ hb
  rcases List.mem_append.1 hb' with h1 | h2
  · exact h b h1
  · have := List.eq_of_mem_replicate h2
    omega

theorem length_keyStream_aux (P : CryptoPrims) (key iv : List Nat) :
    ∀ m : Nat, (((List.range m).map
      (fun i => padTo16 (bytes (P.blk key iv i)))).flatten).length = 16 * m := by
  intro m
  induction m with
  | zero => rfl
  | succ m ih =>
    rw [List.range_succ, List.map_append, List.flatten_append,
      List.length_append, ih]
    simp [length_padTo16]
    omega

theorem length_keyStream (P : CryptoPrims) (key iv : List Nat) (n : Nat) :
    (keyStream P key iv n).length = n := by
  unfold keyStream
  rw [List.length_take, length_keyStream_aux]
  omega

theorem mem_keyStream_lt (P : CryptoPrims) (key iv : List Nat) (n : Nat) :
    ∀ b ∈ keyStream P key iv n, b < 256 := by
  intro b hb
  unfold keyStream at hb
  have hb' := List.take_subset _ _ hb
  rw [List.mem_flatten] at hb'
  obtain ⟨l, hl, hbl⟩ := hb'
  rw [List.mem_map] at hl
  obtain ⟨i, _, rfl⟩ := hl
  exact mem_padTo16_lt mem_bytes_lt b hbl

theorem length_zipXor : ∀ a b : List Nat,
    (zipXor a b).length = min a.length b.length := by
  intro a
  induction a with
  | nil => intro b; cases b <;> simp [zipXor]
  | cons x xs ih =>
    intro b
    cases b with
    | nil => simp [zipXor]
    | cons y ys =>
      simp only [zipXor, List.length_cons, ih]
      omega

theorem mem_zipXor_lt : ∀ a b : List Nat, (∀ x ∈ a, x < 256) →
    (∀ x ∈ b, x < 256) → ∀ x ∈ zipXor a b, x < 256 := by
  intro a
  induction a with
  | nil => intro b _ _ x hx; cases b <;> simp [zipXor] at hx
  | cons z zs ih =>
    intro b ha hb x hx
    cases b with
    | nil => simp [zipXor] at hx
    | cons y ys =>
      simp only [zipXor, List.mem_cons] at hx
      rcases hx with rfl | hx
      · have hz : z < 2 ^ 8 := by
          have := ha z (by simp); omega
        have hy : y < 2 ^ 8 := by
          have := hb y (by simp); omega
        have := Nat.xor_lt_two_pow hz hy
        omega
      · exact ih ys (fun u hu => ha u (by simp [hu]))
          (fun u hu => hb u (by simp [hu])) x hx

theorem zipXor_cancel : ∀ a b : List Nat, a.length ≤ b.length →
    zipXor (zipXor a b) b = a := by
  intro a
  induction a with
  | nil => intro b _; cases b <;> rfl
  | cons x xs ih =>
    intro b hb
    cases b with
    | nil => simp at hb
    | cons y ys =>
      simp only [zipXor, List.cons.injEq]
      exact ⟨Nat.xor_cancel_right _ _, ih ys (by simpa using hb)⟩

theorem length_gcmTag (P : CryptoPrims) (key iv ct : List Nat) :
    (gcmTag P key iv ct).length = 16 :=
  length_padTo16 _

theorem aesGcmDecrypt_encrypt (P : CryptoPrims) (key iv pt : List Nat) :
    aesGcmDecrypt P key iv (aesGcmEncrypt P key iv pt) = some pt := by
  have hctlen : (zipXor pt (keyStream P key iv pt.length)).length = pt.length := by
    rw [length_zipXor, length_keyStream, Nat.min_self]
  unfold aesGcmEncrypt aesGcmDecrypt
  have hD : (zipXor pt (keyStream P key iv pt.length) ++
      gcmTag P key iv (zipXor pt (keyStream P key iv pt.length))).length -
      16 = (zipXor pt (keyStream P key iv pt.length)).length := by
    rw [List.length_append, length_gcmTag]
    omega
  have hnotlt : ¬ ((zipXor pt (keyStream P key iv pt.length) ++
      gcmTag P key iv (zipXor pt (keyStream P key iv pt.length))).length < 16) := by
    rw [List.length_append, length_gcmTag]
    omega
  rw [if_neg hnotlt, hD, List.take_left, List.drop_left, if_pos rfl, hctlen,
    zipXor_cancel pt _ (le_of_eq (length_keyStream P key iv pt.length).symm)]

theorem mem_aesGcmEncrypt_lt (P : CryptoPrims) (key iv pt : List Nat)
    (hpt : ∀ b ∈ pt, b < 256) : ∀ b ∈ aesGcmEncrypt P key iv pt, b < 256 := by
  intro b hb
  unfold aesGcmEncrypt at hb
  rcases List.mem_append.1 hb with h1 | h2
  · exact mem_zipXor_lt pt _ hpt (mem_keyStream_lt P key iv pt.length) b h1
  · unfold gcmTag at h2
    exact mem_padTo16_lt mem_bytes_lt b h2

theorem login_reduces (P : CryptoPrims) (now : Nat) (pw : String) (s : AppState)
    (ad : AuthRecord) (hdb : s.db = some ad)
    (hnl : ∀ t, ad.lockoutUntil = some t → t ≤ now) :
    loginWithPassword P now pw s = loginEvaluate P now pw s ad := by
  cases hl : ad.lockoutUntil with
  | none => simp only [loginWithPassword, hdb, hl]
  | some t =>
    simp only [loginWithPassword, hdb, hl]
    rw [if_neg (by have := hnl t hl; omega)]

theorem loginEvaluate_wrong_incr (P : CryptoPrims) (now : Nat) (pw : String)
    (s : AppState) (ad : AuthRecord)
    (hbad : verifyPassword P pw ad.passwordHash ad.salt = false)
    (hlt : ad.failedAttempts + 1 < MAX_FAILED_ATTEMPTS) :
    loginEvaluate P now pw s ad =
      (.invalidPassword (MAX_FAILED_ATTEMPTS - (ad.failedAttempts + 1)),
        { s with db := some { ad with failedAttempts := ad.failedAttempts + 1 } }) := by
  simp only [loginEvaluate, hbad, Bool.not_false, if_true]
  rw [if_neg (by omega)]

theorem loginEvaluate_wrong_lock (P : CryptoPrims) (now : Nat) (pw : String)
    (s : AppState) (ad : AuthRecord)
    (hbad : verifyPassword P pw ad.passwordHash ad.salt = false)
    (hge : MAX_FAILED_ATTEMPTS ≤ ad.failedAttempts + 1) :
    loginEvaluate P now pw s ad =
      (.lockedAfterFailures,
        { s with db := some { ad with failedAttempts := 0
                                      lockoutUntil := some (now + LOCKOUT_DURATION) } }) := by
  simp only [loginEvaluate, hbad, Bool.not_false, if_true]
  rw [if_pos hge]

theorem lockedLoginStep (P : CryptoPrims) (now : Nat) (pw : String)
    (st : AppState) (r : AuthRecord) (t : Nat)
    (hdb : st.db = some r) (hlk : r.lockoutUntil = some t) (hlt : now < t) :
    loginWithPassword P now pw st = (.lockedRemaining ((t - now + 999) / 1000), st) := by
  simp only [loginWithPassword, hdb, hlk]
  rw [if_pos hlt]

theorem wrongLoginStep (P : CryptoPrims) (now : Nat) (pw : String)
    (st : AppState) (r : AuthRecord)
    (hdb : st.db = some r) (hlk : r.lockoutUntil = none)
    (hbad : verifyPassword P pw r.passwordHash r.salt = false)
    (hlt : r.failedAttempts + 1 < MAX_FAILED_ATTEMPTS) :
    (loginWithPassword P now pw st).2 =
      { st with db := some { r with failedAttempts := r.failedAttempts + 1 } } := by
  rw [login_reduces P now pw st r hdb (fun t ht => by rw [hlk] at ht; cases ht),
    loginEvaluate_wrong_incr P now pw st r hbad hlt]

theorem bioLoginStep (now : Nat) (s : AppState) (ad : AuthRecord)
    (hdb : s.db = some ad) (hbioen : ad.biometricEnabled = true)
    (hcred : isTruthy ad.biometricCredentialId = true) :
    loginWithBiometric true now s =
      (.loggedIn (isTruthy ad.encryptedApiKey),
        { s with session := some (now + SESSION_TIMEOUT)
                 authState :=
                   { isLoading := false, needsSetup := false
                     isAuthenticated := true, authData := some ad } }) := by
  simp only [loginWithBiometric, hdb, hbioen, hcred, Bool.and_self,
    Bool.not_true, Bool.false_eq_true, if_false]

/-! ## Claims -/

/-- C7: for every plaintext M, password P and salt S, decrypting the output
of `encryptData` under the same password and salt, with the nonce (iv)
produced by that encryption, returns M — decrypt after encrypt is the
identity on plaintexts.  The hypothesis states that the platform text
decoder inverts the platform text encoder on M (TextDecoder ∘ TextEncoder
= id, a property of the platform, not of the repository). -/
theorem decryptData_encryptData_roundtrip (P : CryptoPrims)
    (m password salt : String) (ivRand : List Nat)
    (hdec : P.decodeText (bytes (P.encodeText m)) = m) :
    decryptData P (encryptData P m password salt ivRand).1
      (encryptData P m password salt ivRand).2 password salt = some m := by
  have he1 : (encryptData P m password salt ivRand).1 =
      bufferToBase64 (aesGcmEncrypt P
        (deriveKey P password (base64ToBuffer salt) "encrypt")
        (bytes ivRand) (bytes (P.encodeText m))) := rfl
  have he2 : (encryptData P m password salt ivRand).2 =
      bufferToBase64 (bytes ivRand) := rfl
  rw [he1, he2]
  show (aesGcmDecrypt P (deriveKey P password (base64ToBuffer salt) "encrypt")
      (base64ToBuffer (bufferToBase64 (bytes ivRand)))
      (base64ToBuffer (bufferToBase64 (aesGcmEncrypt P
        (deriveKey P password (base64ToBuffer salt) "encrypt")
        (bytes ivRand) (bytes (P.encodeText m)))))).map P.decodeText = some m
  rw [base64_buffer_roundtrip _ mem_bytes_lt,
    base64_buffer_roundtrip _ (mem_aesGcmEncrypt_lt _ _ _ _ mem_bytes_lt),
    aesGcmDecrypt_encrypt, Option.map_some', hdec]

/-- Witness for C7 at a concrete plaintext, password, salt and IV. -/
theorem decryptData_encryptData_roundtrip_witness :
    demoPrims.decodeText (bytes (demoPrims.encodeText "sk-abc123")) = "sk-abc123" ∧
    decryptData demoPrims (encryptData demoPrims "sk-abc123" "pw" "" [1, 2, 3]).1
      (encryptData demoPrims "sk-abc123" "pw" "" [1, 2, 3]).2 "pw" "" =
      some "sk-abc123" :=
  ⟨by decide,
    decryptData_encryptData_roundtrip demoPrims "sk-abc123" "pw" "" [1, 2, 3]
      (by decide)⟩

/-- Counterexample for C9.  The claim says `deriveKey`/`hashPassword` fail
with `InvalidInput` when the password is empty or the salt does not have
the expected 16-byte length.  In the source (crypto.js lines 57-107) there
is no validation at all: with the empty password and a 3-byte salt,
`hashPassword` produces key material (here the hash equals the base64 of
the concrete derived bytes) and the produced hash/salt pair is even
accepted by `verifyPassword` — nothing fails. -/
theorem hashPassword_empty_password_short_salt_succeeds :
    (hashPassword demoPrims "" [1, 2, 3]).1 = "AQID" ∧
    verifyPassword demoPrims "" (hashPassword demoPrims "" [1, 2, 3]).1
      (hashPassword demoPrims "" [1, 2, 3]).2 = true :=
  ⟨by decide, by decide⟩

/-- C9 amended: `deriveKey` and `hashPassword` perform no input validation;
every password (the empty one included) and a salt of any length produce
key material, and the produced hash/salt pair always verifies against the
same password. -/
theorem hashPassword_no_validation (P : CryptoPrims) (password : String)
    (saltBytes : List Nat) :
    verifyPassword P password (hashPassword P password saltBytes).1
      (hashPassword P password saltBytes).2 = true := by
  have h1 : (hashPassword P password saltBytes).1 =
      bufferToBase64 (deriveKey P password (bytes saltBytes) "hash") := rfl
  have h2 : (hashPassword P password saltBytes).2 =
      bufferToBase64 (bytes saltBytes) := rfl
  rw [h1, h2]
  unfold verifyPassword
  rw [base64_buffer_roundtrip _ mem_bytes_lt]
  have h3 : (hashPassword P password (bytes saltBytes)).1 =
      bufferToBase64 (deriveKey P password (bytes (bytes saltBytes)) "hash") := rfl
  show ((hashPassword P password (bytes saltBytes)).1 ==
    bufferToBase64 (deriveKey P password (bytes saltBytes) "hash")) = true
  rw [h3, bytes_bytes]
  exact beq_self_eq_true _

/-- C1: a login attempt while `lockoutUntil` is set and strictly in the
future returns the Locked outcome with `⌈(lockoutUntil − now)/1000⌉`
remaining seconds and leaves the state untouched — for every password and
every primitive bundle, so no key derivation or verification can have been
consulted; when `lockoutUntil` is absent or `≤ now` the attempt proceeds
to the normal evaluation phase (`loginEvaluate`), so an attempt just
before `lockoutUntil` is refused and one at or after it is evaluated. -/
theorem loginWithPassword_lockout_gate (P : CryptoPrims) (now : Nat)
    (s : AppState) (ad : AuthRecord) (hdb : s.db = some ad) :
    (∀ t password, ad.lockoutUntil = some t → now < t →
        loginWithPassword P now password s =
          (.lockedRemaining ((t - now + 999) / 1000), s)) ∧
    (∀ t password, ad.lockoutUntil = some t → t ≤ now →
        loginWithPassword P now password s = loginEvaluate P now password s ad) ∧
    (∀ password, ad.lockoutUntil = none →
        loginWithPassword P now password s = loginEvaluate P now password s ad) := by
  refine ⟨?_, ?_, ?_⟩
  · intro t password ht hlt
    simp only [loginWithPassword, hdb, ht]
    rw [if_pos hlt]
  · intro t password ht hle
    simp only [loginWithPassword, hdb, ht]
    rw [if_neg (by omega)]
  · intro password ht
    simp only [loginWithPassword, hdb, ht]

/-- C2: every failed verification not refused by lockout increments
`failedAttempts`; when the new count reaches the threshold 5, the record
gets `lockoutUntil = now + 30s` with `failedAttempts` reset to 0 and the
lockout outcome is returned, otherwise the outcome carries `5 − newCount`
attempts remaining; and after exactly five consecutive failures a sixth
attempt inside the lockout window returns Locked even with the correct
password. -/
theorem loginWithPassword_failure_policy (P : CryptoPrims) (s : AppState)
    (ad : AuthRecord) (now : Nat) (wrongPw : String)
    (hdb : s.db = some ad)
    (hnl : ∀ t, ad.lockoutUntil = some t → t ≤ now)
    (hbad : verifyPassword P wrongPw ad.passwordHash ad.salt = false) :
    (MAX_FAILED_ATTEMPTS ≤ ad.failedAttempts + 1 →
      loginWithPassword P now wrongPw s =
        (.lockedAfterFailures,
          { s with db := some { ad with failedAttempts := 0
                                        lockoutUntil := some (now + LOCKOUT_DURATION) } })) ∧
    (ad.failedAttempts + 1 < MAX_FAILED_ATTEMPTS →
      loginWithPassword P now wrongPw s =
        (.invalidPassword (MAX_FAILED_ATTEMPTS - (ad.failedAttempts + 1)),
          { s with db := some { ad with failedAttempts := ad.failedAttempts + 1 } })) ∧
    (∀ t1 t2 t3 t4 t5 t6 : Nat, ∀ anyPw : String,
      ad.failedAttempts = 0 → ad.lockoutUntil = none →
      t6 < t5 + LOCKOUT_DURATION →
      (loginWithPassword P t6 anyPw
        ((loginWithPassword P t5 wrongPw
          ((loginWithPassword P t4 wrongPw
            ((loginWithPassword P t3 wrongPw
              ((loginWithPassword P t2 wrongPw
                ((loginWithPassword P t1 wrongPw s).2)).2)).2)).2)).2)).1 =
        .lockedRemaining ((t5 + LOCKOUT_DURATION - t6 + 999) / 1000)) := by
  refine ⟨?_, ?_, ?_⟩
  · intro hge
    rw [login_reduces P now wrongPw s ad hdb hnl,
      loginEvaluate_wrong_lock P now wrongPw s ad hbad hge]
  · intro hlt
    rw [login_reduces P now wrongPw s ad hdb hnl,
      loginEvaluate_wrong_incr P now wrongPw s ad hbad hlt]
  · intro t1 t2 t3 t4 t5 t6 anyPw h0 hlock hwin
    have e1 : (loginWithPassword P t1 wrongPw s).2 =
        { s with db := some { ad with failedAttempts := ad.failedAttempts + 1 } } :=
      wrongLoginStep P t1 wrongPw s ad hdb hlock hbad (by rw [h0]; decide)
    have e2 : (loginWithPassword P t2 wrongPw
        { s with db := some { ad with failedAttempts := ad.failedAttempts + 1 } }).2 =
        { s with db := some { ad with failedAttempts := ad.failedAttempts + 1 + 1 } } := by
      have := wrongLoginStep P t2 wrongPw
        { s with db := some { ad with failedAttempts := ad.failedAttempts + 1 } }
        { ad with failedAttempts := ad.failedAttempts + 1 }
        rfl hlock hbad (by simp [MAX_FAILED_ATTEMPTS]; omega)
      simpa using this
    have e3 : (loginWithPassword P t3 wrongPw
        { s with db := some { ad with failedAttempts := ad.failedAttempts + 1 + 1 } }).2 =
        { s with db := some { ad with failedAttempts := ad.failedAttempts + 1 + 1 + 1 } } := by
      have := wrongLoginStep P t3 wrongPw
        { s with db := some { ad with failedAttempts := ad.failedAttempts + 1 + 1 } }
        { ad with failedAttempts := ad.failedAttempts + 1 + 1 }
        rfl hlock hbad (by simp [MAX_FAILED_ATTEMPTS]; omega)
      simpa using this
    have e4 : (loginWithPassword P t4 wrongPw
        { s with db := some { ad with failedAttempts := ad.failedAttempts + 1 + 1 + 1 } }).2 =
        { s with db := some { ad with failedAttempts := ad.failedAttempts + 1 + 1 + 1 + 1 } } := by
      have := wrongLoginStep P t4 wrongPw
        { s with db := some { ad with failedAttempts := ad.failedAttempts + 1 + 1 + 1 } }
        { ad with failedAttempts := ad.failedAttempts + 1 + 1 + 1 }
        rfl hlock hbad (by simp [MAX_FAILED_ATTEMPTS]; omega)
      simpa using this
    have e5 : (loginWithPassword P t5 wrongPw
        { s with db := some { ad with failedAttempts := ad.failedAttempts + 1 + 1 + 1 + 1 } }).2 =
        { s with db := some { ad with failedAttempts := 0
                                      lockoutUntil := some (t5 + LOCKOUT_DURATION) } } := by
      have := loginEvaluate_wrong_lock P t5 wrongPw
        { s with db := some { ad with failedAttempts := ad.failedAttempts + 1 + 1 + 1 + 1 } }
        { ad with failedAttempts := ad.failedAttempts + 1 + 1 + 1 + 1 }
        hbad (by show (5 : Nat) ≤ ad.failedAttempts + 1 + 1 + 1 + 1 + 1; omega)
      rw [login_reduces P t5 wrongPw
        { s with db := some { ad with failedAttempts := ad.failedAttempts + 1 + 1 + 1 + 1 } }
        { ad with failedAttempts := ad.failedAttempts + 1 + 1 + 1 + 1 }
        rfl (fun t ht => by rw [show ({ ad with failedAttempts := ad.failedAttempts + 1 + 1 + 1 + 1 } : AuthRecord).lockoutUntil = ad.lockoutUntil from rfl, hlock] at ht; cases ht),
        this]
    have e6 := lockedLoginStep P t6 anyPw
      { s with db := some { ad with failedAttempts := 0
                                    lockoutUntil := some (t5 + LOCKOUT_DURATION) } }
      { ad with failedAttempts := 0, lockoutUntil := some (t5 + LOCKOUT_DURATION) }
      (t5 + LOCKOUT_DURATION) rfl rfl hwin
    rw [e1, e2, e3, e4, e5, e6]

/-- Witness for C2: from a fresh record, five wrong-password logins
followed by a sixth attempt with the *correct* password return the Locked
outcome with 30 seconds remaining. -/
theorem loginWithPassword_failure_policy_witness :
    verifyPassword demoPrims "x" demoRecord.passwordHash demoRecord.salt = false ∧
    (loginWithPassword demoPrims 0 "pw"
      ((loginWithPassword demoPrims 0 "x"
        ((loginWithPassword demoPrims 0 "x"
          ((loginWithPassword demoPrims 0 "x"
            ((loginWithPassword demoPrims 0 "x"
              ((loginWithPassword demoPrims 0 "x" demoState).2)).2)).2)).2)).2)).1 =
      .lockedRemaining 30 := by
  refine ⟨by decide, ?_⟩
  have h := (loginWithPassword_failure_policy demoPrims demoState demoRecord 0 "x"
    rfl (fun t ht => by simp [demoRecord] at ht) (by decide)).2.2
    0 0 0 0 0 0 "pw" rfl rfl (by decide)
  simpa [LOCKOUT_DURATION] using h

/-- Witness for C1: a concrete locked-out state at `now = 5` with
`lockoutUntil = 100000` refuses with 100 remaining seconds, and the same
state at `now = 100000` is evaluated normally. -/
theorem loginWithPassword_lockout_gate_witness :
    loginWithPassword demoPrims 5 "pw" demoLockedState =
      (.lockedRemaining 100, demoLockedState) ∧
    loginWithPassword demoPrims 100000 "pw" demoLockedState =
      loginEvaluate demoPrims 100000 "pw" demoLockedState demoLockedRecord := by
  constructor
  · have h := (loginWithPassword_lockout_gate demoPrims 5 demoLockedState
      demoLockedRecord rfl).1 100000 "pw" rfl (by norm_num)
    simpa using h
  · exact (loginWithPassword_lockout_gate demoPrims 100000 demoLockedState
      demoLockedRecord rfl).2.1 100000 "pw" rfl (by norm_num)

/-- C10: a failed password login (wrong password, no active lockout) may
change only `failedAttempts` and `lockoutUntil` in the persisted record;
every other record field, the session, the in-memory secret material and
the React auth state are untouched — in particular no session is
created. -/
theorem loginWithPassword_failure_frame (P : CryptoPrims) (s : AppState)
    (ad : AuthRecord) (now : Nat) (pw : String)
    (hdb : s.db = some ad)
    (hnl : ∀ t, ad.lockoutUntil = some t → t ≤ now)
    (hbad : verifyPassword P pw ad.passwordHash ad.salt = false) :
    ∃ ad', (loginWithPassword P now pw s).2 = { s with db := some ad' } ∧
      ad'.passwordHash = ad.passwordHash ∧ ad'.salt = ad.salt ∧
      ad'.encryptedApiKey = ad.encryptedApiKey ∧ ad'.apiKeyIV = ad.apiKeyIV ∧
      ad'.biometricEnabled = ad.biometricEnabled ∧
      ad'.biometricCredentialId = ad.biometricCredentialId ∧
      ad'.createdAt = ad.createdAt ∧ ad'.targetCalories = ad.targetCalories ∧
      (loginWithPassword P now pw s).2.session = s.session ∧
      (loginWithPassword P now pw s).2.decryptedApiKey = s.decryptedApiKey ∧
      (loginWithPassword P now pw s).2.currentPassword = s.currentPassword ∧
      (loginWithPassword P now pw s).2.authState = s.authState := by
  rcases Nat.lt_or_ge (ad.failedAttempts + 1) MAX_FAILED_ATTEMPTS with hlt | hge
  · refine ⟨{ ad with failedAttempts := ad.failedAttempts + 1 }, ?_⟩
    rw [login_reduces P now pw s ad hdb hnl,
      loginEvaluate_wrong_incr P now pw s ad hbad hlt]
    exact ⟨rfl, rfl, rfl, rfl, rfl, rfl, rfl, rfl, rfl, rfl, rfl, rfl, rfl⟩
  · refine ⟨{ ad with failedAttempts := 0, lockoutUntil := some (now + LOCKOUT_DURATION) }, ?_⟩
    rw [login_reduces P now pw s ad hdb hnl,
      loginEvaluate_wrong_lock P now pw s ad hbad hge]
    exact ⟨rfl, rfl, rfl, rfl, rfl, rfl, rfl, rfl, rfl, rfl, rfl, rfl, rfl⟩

/-- Witness for C10 at a concrete state and wrong password. -/
theorem loginWithPassword_failure_frame_witness :
    ∃ ad', (loginWithPassword demoPrims 0 "x" demoState).2 =
        { demoState with db := some ad' } ∧
      ad'.passwordHash = demoRecord.passwordHash ∧ ad'.salt = demoRecord.salt ∧
      ad'.encryptedApiKey = demoRecord.encryptedApiKey ∧
      ad'.apiKeyIV = demoRecord.apiKeyIV ∧
      ad'.biometricEnabled = demoRecord.biometricEnabled ∧
      ad'.biometricCredentialId = demoRecord.biometricCredentialId ∧
      ad'.createdAt = demoRecord.createdAt ∧
      ad'.targetCalories = demoRecord.targetCalories ∧
      (loginWithPassword demoPrims 0 "x" demoState).2.session = demoState.session ∧
      (loginWithPassword demoPrims 0 "x" demoState).2.decryptedApiKey =
        demoState.decryptedApiKey ∧
      (loginWithPassword demoPrims 0 "x" demoState).2.currentPassword =
        demoState.currentPassword ∧
      (loginWithPassword demoPrims 0 "x" demoState).2.authState =
        demoState.authState :=
  loginWithPassword_failure_frame demoPrims demoState demoRecord 0 "x" rfl
    (fun t ht => by simp [demoRecord] at ht) (by decide)

/-- C8: when the password is correct but the stored secret fails to
decrypt, login still succeeds: the attempt counters are reset, a session
is created, the state becomes authenticated (not needing setup), and the
in-memory secret is simply left empty. -/
theorem loginWithPassword_decrypt_failure_tolerated (P : CryptoPrims)
    (s : AppState) (ad : AuthRecord) (now : Nat) (pw : String) (e iv : String)
    (hdb : s.db = some ad)
    (hnl : ∀ t, ad.lockoutUntil = some t → t ≤ now)
    (hok : verifyPassword P pw ad.passwordHash ad.salt = true)
    (he : ad.encryptedApiKey = some e) (hiv : ad.apiKeyIV = some iv)
    (hne : e.isEmpty = false) (hniv : iv.isEmpty = false)
    (hdec : decryptData P e iv pw ad.salt = none) :
    loginWithPassword P now pw s =
      (.loggedIn,
        { s with
          db := some { ad with failedAttempts := 0, lockoutUntil := none }
          session := some (now + SESSION_TIMEOUT)
          currentPassword := some pw
          decryptedApiKey := none
          authState :=
            { isLoading := false, needsSetup := false, isAuthenticated := true
              authData := some ad } }) := by
  rw [login_reduces P now pw s ad hdb hnl]
  simp only [loginEvaluate, hok, Bool.not_true, Bool.false_eq_true, if_false,
    he, hiv, hne, hniv, Bool.not_false, Bool.and_self, if_true, hdec]

/-- Witness for C8: a concrete record whose stored ciphertext is corrupt
(3 bytes, shorter than the 16-byte tag) still logs in with the correct
password and an empty in-memory secret. -/
theorem loginWithPassword_decrypt_failure_tolerated_witness :
    decryptData demoPrims "AAAA" "AQID" "pw" demoCorruptRecord.salt = none ∧
    loginWithPassword demoPrims 7 "pw" demoCorruptState =
      (.loggedIn,
        { demoCorruptState with
          db := some { demoCorruptRecord with failedAttempts := 0
                                              lockoutUntil := none }
          session := some (7 + SESSION_TIMEOUT)
          currentPassword := some "pw"
          decryptedApiKey := none
          authState :=
            { isLoading := false, needsSetup := false, isAuthenticated := true
              authData := some demoCorruptRecord } }) :=
  ⟨by decide,
    loginWithPassword_decrypt_failure_tolerated demoPrims demoCorruptState
      demoCorruptRecord 7 "pw" "AAAA" "AQID" rfl
      (fun t ht => by simp [demoCorruptRecord, demoRecord] at ht)
      (by decide) rfl rfl (by decide) (by decide) (by decide)⟩

/-- Counterexample for C4.  The claim says `unlockApiKey` verifies the
password "exactly as login's verification does", refusing with a Locked
outcome while a lockout is active and incrementing `failedAttempts` on a
wrong password.  In the source (lines 397-427) there is no lockout check
and no attempt bookkeeping at all: on a concrete state whose record has
`lockoutUntil = 100000` (active for every earlier instant, e.g. `now = 5`
as in the C1 witness), `unlockApiKey` with the correct password returns
`unlocked` instead of a Locked outcome, and with a wrong password it
leaves the stored record (in particular `failedAttempts`) unchanged. -/
theorem unlockApiKey_ignores_lockout_and_attempts :
    demoLockedRecord.lockoutUntil = some 100000 ∧
    (unlockApiKey demoPrims "pw" demoLockedState).1 = .unlocked ∧
    (unlockApiKey demoPrims "wrong" demoLockedState).2 = demoLockedState :=
  ⟨rfl, by decide, by decide⟩

/-- C4 amended: `unlockApiKey` verifies the password with the same
`verifyPassword` used by login but performs no lockout check and no
attempt tracking: a wrong password returns an error with the state
completely unchanged, and a correct password decrypts the secret into
memory (or reports a decryption failure) while leaving the persisted
record, the session and the auth state untouched. -/
theorem unlockApiKey_verification_behavior (P : CryptoPrims) (pw : String)
    (s : AppState) (ad : AuthRecord) (e iv : String)
    (hdb : s.db = some ad)
    (he : ad.encryptedApiKey = some e) (hiv : ad.apiKeyIV = some iv)
    (hne : e.isEmpty = false) (hniv : iv.isEmpty = false) :
    (verifyPassword P pw ad.passwordHash ad.salt = false →
      unlockApiKey P pw s = (.invalidPassword, s)) ∧
    (verifyPassword P pw ad.passwordHash ad.salt = true →
      (decryptData P e iv pw ad.salt = none →
        unlockApiKey P pw s = (.decryptFailed, s)) ∧
      (∀ k, decryptData P e iv pw ad.salt = some k →
        unlockApiKey P pw s =
          (.unlocked, { s with currentPassword := some pw
                               decryptedApiKey := some k }))) := by
  constructor
  · intro hbad
    simp only [unlockApiKey, hdb, he, hiv, hne, hniv, Bool.or_self,
      Bool.false_eq_true, if_false, hbad, Bool.not_false, if_true]
  · intro hok
    constructor
    · intro hdec
      simp only [unlockApiKey, hdb, he, hiv, hne, hniv, Bool.or_self,
        Bool.false_eq_true, if_false, hok, Bool.not_true, hdec]
    · intro k hdec
      simp only [unlockApiKey, hdb, he, hiv, hne, hniv, Bool.or_self,
        Bool.false_eq_true, if_false, hok, Bool.not_true, hdec]

/-- Witness for the amended C4: a wrong password on a concrete (even
locked-out) state returns `invalidPassword` with the state unchanged. -/
theorem unlockApiKey_verification_behavior_witness :
    verifyPassword demoPrims "x" demoLockedRecord.passwordHash
      demoLockedRecord.salt = false ∧
    unlockApiKey demoPrims "x" demoLockedState = (.invalidPassword, demoLockedState) :=
  ⟨by decide,
    (unlockApiKey_verification_behavior demoPrims "x" demoLockedState
      demoLockedRecord demoEnc.1 demoEnc.2 rfl rfl rfl (by decide) (by decide)).1
      (by decide)⟩

/-- Counterexample for C5.  The claim says `deleteAll` is refused without
evaluating the password while a lockout is active.  In the source (lines
446-475) there is no lockout check: on a locked-out state the call with
the correct password wipes everything (so it is not refused), and the call
with a wrong password returns `invalidPassword` (so the password *was*
evaluated during the lockout). -/
theorem deleteAll_ignores_lockout :
    demoLockedRecord.lockoutUntil = some 100000 ∧
    (deleteAll demoPrims "pw" demoLockedState).1 = .wiped ∧
    (deleteAll demoPrims "pw" demoLockedState).2.db = none ∧
    (deleteAll demoPrims "wrong" demoLockedState).1 = .invalidPassword :=
  ⟨rfl, by decide, by decide, by decide⟩

/-- C5 amended: `deleteAll` verifies the password with no lockout check
(even while a lockout is active); persisted state is deleted only after a
successful verification, after which the system is uninitialized
(needs-setup, unauthenticated, no record, no session, no in-memory secret
material); a failed verification leaves the state unchanged. -/
theorem deleteAll_requires_password_only (P : CryptoPrims) (pw : String)
    (s : AppState) (ad : AuthRecord) (hdb : s.db = some ad) :
    (verifyPassword P pw ad.passwordHash ad.salt = false →
      deleteAll P pw s = (.invalidPassword, s)) ∧
    (verifyPassword P pw ad.passwordHash ad.salt = true →
      deleteAll P pw s =
        (.wiped,
          { db := none, session := none, decryptedApiKey := none
            currentPassword := none
            authState :=
              { isLoading := false, needsSetup := true
                isAuthenticated := false, authData := none } })) := by
  constructor
  · intro hbad
    simp only [deleteAll, hdb, hbad, Bool.not_false, if_true]
  · intro hok
    simp only [deleteAll, hdb, hok, Bool.not_true, Bool.false_eq_true, if_false]

/-- Witness for the amended C5: the correct password on a concrete
locked-out state wipes all state. -/
theorem deleteAll_requires_password_only_witness :
    verifyPassword demoPrims "pw" demoLockedRecord.passwordHash
      demoLockedRecord.salt = true ∧
    deleteAll demoPrims "pw" demoLockedState =
      (.wiped,
        { db := none, session := none, decryptedApiKey := none
          currentPassword := none
          authState :=
            { isLoading := false, needsSetup := true
              isAuthenticated := false, authData := none } }) :=
  ⟨by decide,
    (deleteAll_requires_password_only demoPrims "pw" demoLockedState
      demoLockedRecord rfl).2 (by decide)⟩

/-- Counterexample for C6.  The claim says `setupAccount` fails with
`AlreadyInitialized` when an AuthRecord already exists and leaves the
existing record unchanged.  In the source (lines 166-203) there is no such
check: on a state that already holds `demoRecord`, setup succeeds and the
stored record is replaced by a fresh one (different `createdAt`,
`targetCalories` and credentials). -/
theorem setupAccount_overwrites_existing_record :
    demoState.db = some demoRecord ∧
    (setupAccount demoPrims 42 "newpw" 1800 [9, 9] demoState).1 = .ok ∧
    (setupAccount demoPrims 42 "newpw" 1800 [9, 9] demoState).2.db ≠
      some demoRecord :=
  ⟨rfl, rfl, by decide⟩

/-- C6 amended: `setupAccount` performs no `AlreadyInitialized` check; it
unconditionally writes a brand-new AuthRecord (the resulting record does
not depend on the prior state, so any existing record is overwritten),
starts a session and authenticates. -/
theorem setupAccount_unconditional (P : CryptoPrims) (now : Nat)
    (pw : String) (tc : Nat) (saltRand : List Nat) (s t : AppState) :
    (setupAccount P now pw tc saltRand s).1 = .ok ∧
    (setupAccount P now pw tc saltRand s).2.db =
      (setupAccount P now pw tc saltRand t).2.db ∧
    (setupAccount P now pw tc saltRand s).2.authState.isAuthenticated = true ∧
    (setupAccount P now pw tc saltRand s).2.authState.needsSetup = false ∧
    (setupAccount P now pw tc saltRand s).2.session =
      some (now + SESSION_TIMEOUT) ∧
    (setupAccount P now pw tc saltRand s).2.currentPassword = some pw :=
  ⟨rfl, rfl, rfl, rfl, rfl, rfl⟩

theorem pwLoginWrong_secretInv (P : CryptoPrims) (ad0 : AuthRecord)
    (pw : String) (t : Nat) (s : AppState)
    (hinv : SecretInv ad0 s)
    (hop : verifyPassword P pw ad0.passwordHash ad0.salt = false) :
    SecretInv ad0 (loginWithPassword P t pw s).2 := by
  obtain ⟨hnone, r, hdb, hph, hsl, he, hiv⟩ := hinv
  have hbad : verifyPassword P pw r.passwordHash r.salt = false := by
    rw [hph, hsl]; exact hop
  have hnotlocked : ∀ tl, r.lockoutUntil = some tl → ¬ t < tl →
      SecretInv ad0 (loginWithPassword P t pw s).2 := by
    intro tl hl hlt
    have hred := login_reduces P t pw s r hdb
      (fun u hu => by rw [hl] at hu; injection hu with h; omega)
    rcases Nat.lt_or_ge (r.failedAttempts + 1) MAX_FAILED_ATTEMPTS with hc | hc
    · rw [hred, loginEvaluate_wrong_incr P t pw s r hbad hc]
      exact ⟨hnone, _, rfl, hph, hsl, he, hiv⟩
    · rw [hred, loginEvaluate_wrong_lock P t pw s r hbad hc]
      exact ⟨hnone, _, rfl, hph, hsl, he, hiv⟩
  cases hl : r.lockoutUntil with
  | some tl =>
    by_cases hlt : t < tl
    · rw [lockedLoginStep P t pw s r tl hdb hl hlt]
      exact ⟨hnone, r, hdb, hph, hsl, he, hiv⟩
    · exact hnotlocked tl hl hlt
  | none =>
    have hred := login_reduces P t pw s r hdb (fun u hu => by rw [hl] at hu; cases hu)
    rcases Nat.lt_or_ge (r.failedAttempts + 1) MAX_FAILED_ATTEMPTS with hc | hc
    · rw [hred, loginEvaluate_wrong_incr P t pw s r hbad hc]
      exact ⟨hnone, _, rfl, hph, hsl, he, hiv⟩
    · rw [hred, loginEvaluate_wrong_lock P t pw s r hbad hc]
      exact ⟨hnone, _, rfl, hph, hsl, he, hiv⟩

theorem applyOp_secretInv (P : CryptoPrims) (ad0 : AuthRecord) (s : AppState)
    (op : SessOp)
    (hop : opUsesCorrectPassword P ad0.passwordHash ad0.salt op = false)
    (hinv : SecretInv ad0 s) : SecretInv ad0 (applyOp P s op) := by
  obtain ⟨hnone, r, hdb, hph, hsl, he, hiv⟩ := hinv
  cases op with
  | opPwLogin pw t =>
    exact pwLoginWrong_secretInv P ad0 pw t s ⟨hnone, r, hdb, hph, hsl, he, hiv⟩ hop
  | opBioLogin b t =>
    show SecretInv ad0 (loginWithBiometric b t s).2
    simp only [loginWithBiometric, hdb]
    split
    · exact ⟨hnone, r, hdb, hph, hsl, he, hiv⟩
    · split
      · exact ⟨hnone, r, hdb, hph, hsl, he, hiv⟩
      · exact ⟨hnone, r, rfl, hph, hsl, he, hiv⟩
  | opUnlock pw =>
    show SecretInv ad0 (unlockApiKey P pw s).2
    have hbad : verifyPassword P pw r.passwordHash r.salt = false := by
      rw [hph, hsl]; exact hop
    simp only [unlockApiKey, hdb]
    cases hek : r.encryptedApiKey with
    | none => exact ⟨hnone, r, hdb, hph, hsl, he, hiv⟩
    | some e' =>
      cases hik : r.apiKeyIV with
      | none => exact ⟨hnone, r, hdb, hph, hsl, he, hiv⟩
      | some iv' =>
        rw [hbad]
        simp only [Bool.not_false, if_true]
        split
        · exact ⟨hnone, r, hdb, hph, hsl, he, hiv⟩
        · exact ⟨hnone, r, hdb, hph, hsl, he, hiv⟩
  | opWipe pw =>
    show SecretInv ad0 (deleteAll P pw s).2
    have hbad : verifyPassword P pw r.passwordHash r.salt = false := by
      rw [hph, hsl]; exact hop
    simp only [deleteAll, hdb, hbad, Bool.not_false, if_true]
    exact ⟨hnone, r, hdb, hph, hsl, he, hiv⟩
  | opLock =>
    show SecretInv ad0 (lock s)
    exact ⟨rfl, r, hdb, hph, hsl, he, hiv⟩
  | opEnableBio a c =>
    show SecretInv ad0 (enableBiometric a c s)
    cases a with
    | false =>
      simp only [enableBiometric, Bool.not_false, if_true]
      exact ⟨hnone, r, hdb, hph, hsl, he, hiv⟩
    | true =>
      simp only [enableBiometric, Bool.not_true, Bool.false_eq_true, if_false, hdb]
      exact ⟨hnone, _, rfl, hph, hsl, he, hiv⟩
  | opDisableBio =>
    show SecretInv ad0 (disableBiometric s)
    simp only [disableBiometric, hdb]
    exact ⟨hnone, _, rfl, hph, hsl, he, hiv⟩

theorem runOps_secretInv (P : CryptoPrims) (ad0 : AuthRecord) :
    ∀ (ops : List SessOp) (s : AppState),
      (∀ op ∈ ops, opUsesCorrectPassword P ad0.passwordHash ad0.salt op = false) →
      SecretInv ad0 s → SecretInv ad0 (runOps P s ops) := by
  intro ops
  induction ops with
  | nil => intro s _ hinv; exact hinv
  | cons op ops ih =>
    intro s hall hinv
    exact ih (applyOp P s op) (fun o ho => hall o (by simp [ho]))
      (applyOp_secretInv P ad0 s op (hall op (by simp)) hinv)

/-- C3: from any reachable state holding a stored secret and no decrypted
secret in memory, a successful biometric login authenticates (and reports
that the password is still needed for the API key) while the in-memory
decrypted secret stays empty; it stays empty along every subsequent
sequence of operations in which no operation supplies the correct
password; and a subsequent `unlockApiKey` with the correct password is
exactly what makes the decrypted secret available. -/
theorem biometric_login_keeps_secret_locked (P : CryptoPrims) (s : AppState)
    (ad : AuthRecord) (now : Nat)
    (hdb : s.db = some ad)
    (hnokey : s.decryptedApiKey = none)
    (hbioen : ad.biometricEnabled = true)
    (hcred : isTruthy ad.biometricCredentialId = true)
    (hsec : isTruthy ad.encryptedApiKey = true)
    (hsiv : isTruthy ad.apiKeyIV = true) :
    (loginWithBiometric true now s).1 = .loggedIn true ∧
    (loginWithBiometric true now s).2.authState.isAuthenticated = true ∧
    (loginWithBiometric true now s).2.decryptedApiKey = none ∧
    (∀ ops : List SessOp,
      (∀ op ∈ ops, opUsesCorrectPassword P ad.passwordHash ad.salt op = false) →
      (runOps P (loginWithBiometric true now s).2 ops).decryptedApiKey = none) ∧
    (∀ (ops : List SessOp) (pw e iv k : String),
      (∀ op ∈ ops, opUsesCorrectPassword P ad.passwordHash ad.salt op = false) →
      ad.encryptedApiKey = some e → ad.apiKeyIV = some iv →
      verifyPassword P pw ad.passwordHash ad.salt = true →
      decryptData P e iv pw ad.salt = some k →
      (unlockApiKey P pw (runOps P (loginWithBiometric true now s).2 ops)).1 =
          .unlocked ∧
        (unlockApiKey P pw
          (runOps P (loginWithBiometric true now s).2 ops)).2.decryptedApiKey =
          some k) := by
  have hb := bioLoginStep now s ad hdb hbioen hcred
  have inv0 : SecretInv ad (loginWithBiometric true now s).2 := by
    rw [hb]
    exact ⟨hnokey, ad, hdb, rfl, rfl, rfl, rfl⟩
  refine ⟨by rw [hb, hsec], by rw [hb], by rw [hb]; exact hnokey, ?_, ?_⟩
  · intro ops hall
    exact (runOps_secretInv P ad ops _ hall inv0).1
  · intro ops pw e iv k hall he hiv hok hdec
    obtain ⟨hn, r, hrdb, hph, hsl, hre, hri⟩ := runOps_secretInv P ad ops _ hall inv0
    have he' : r.encryptedApiKey = some e := by rw [hre, he]
    have hiv' : r.apiKeyIV = some iv := by rw [hri, hiv]
    have hne : e.isEmpty = false := by
      have h := hsec
      rw [he] at h
      simpa [isTruthy] using h
    have hniv : iv.isEmpty = false := by
      have h := hsiv
      rw [hiv] at h
      simpa [isTruthy] using h
    have hok' : verifyPassword P pw r.passwordHash r.salt = true := by
      rw [hph, hsl]; exact hok
    have hdec' : decryptData P e iv pw r.salt = some k := by
      rw [hsl]; exact hdec
    have hu : unlockApiKey P pw (runOps P (loginWithBiometric true now s).2 ops) =
        (.unlocked,
          { (runOps P (loginWithBiometric true now s).2 ops) with
            currentPassword := some pw
            decryptedApiKey := some k }) := by
      simp only [unlockApiKey, hrdb, he', hiv', hne, hniv, Bool.or_self,
        Bool.false_eq_true, if_false, hok', Bool.not_true, hdec']
    exact ⟨by rw [hu], by rw [hu]⟩

/-- Witness for C3 at a concrete state, a concrete trace of
wrong-password and biometric/lock operations, and the correct password. -/
theorem biometric_login_keeps_secret_locked_witness :
    (runOps demoPrims (loginWithBiometric true 5 demoState).2
      [.opUnlock "x", .opBioLogin true 7, .opLock]).decryptedApiKey = none ∧
    (unlockApiKey demoPrims "pw"
      (runOps demoPrims (loginWithBiometric true 5 demoState).2
        [.opUnlock "x", .opBioLogin true 7, .opLock])).2.decryptedApiKey =
      some "sk-abc123" := by
  have h := biometric_login_keeps_secret_locked demoPrims demoState demoRecord 5
    rfl rfl rfl (by decide) (by decide) (by decide)
  exact ⟨h.2.2.2.1 [.opUnlock "x", .opBioLogin true 7, .opLock] (by decide),
    (h.2.2.2.2 [.opUnlock "x", .opBioLogin true 7, .opLock] "pw" demoEnc.1
      demoEnc.2 "sk-abc123" (by decide) rfl rfl (by decide) (by decide)).2⟩

end CalTrack
